import Mathlib

/-!
Verification of the Vegas-Tunnel signal core: EMA calculation, indicator
snapshot extraction, the stateful tunnel detector, and Fibonacci target
projection. Numbers are modelled as rationals; the detector's two mutable
fields (`longShort` ∈ {0,1,2} and `state` ∈ {0,1} in the source) are
modelled as a `TrendAlignment` value and an `armed` flag, and `analyzeSignal`
is the corresponding pure state-transition function.
-/

/-- Signal direction of a detector output (source union type
`'long' | 'short' | 'none'`). -/
inductive SignalType
  | long
  | short
  | none
  deriving DecidableEq

/-- Direction argument of the target projector (source union type
`'long' | 'short'`). -/
inductive Direction
  | long
  | short
  deriving DecidableEq

/-- Trend alignment: source field `longShort` with 0 = no direction,
1 = bullish stack, 2 = bearish stack. -/
inductive TrendAlignment
  | none
  | bullish
  | bearish
  deriving DecidableEq

/-- One OHLCV candle (source interface `CandleData`). -/
structure CandleData where
  timestamp : ℤ
  «open» : ℚ
  high : ℚ
  low : ℚ
  close : ℚ
  volume : ℚ
  deriving DecidableEq

instance : Inhabited CandleData := ⟨⟨0, 0, 0, 0, 0, 0⟩⟩

/-- The five-EMA snapshot (source interface `TechnicalIndicators`). -/
structure TechnicalIndicators where
  ema12 : ℚ
  ema144 : ℚ
  ema169 : ℚ
  ema576 : ℚ
  ema676 : ℚ
  deriving DecidableEq

/-- Detector output (source interface `VegasTunnelSignal`). -/
structure VegasTunnelSignal where
  type : SignalType
  price : ℚ
  timestamp : ℤ
  indicators : TechnicalIndicators
  deriving DecidableEq

/-- The detector's mutable fields: `alignment` is the source's `longShort`
(0 ↦ `.none`, 1 ↦ `.bullish`, 2 ↦ `.bearish`) and `armed` is the source's
`state` (0 ↦ `false`, 1 ↦ `true`). -/
structure DetectorState where
  alignment : TrendAlignment
  armed : Bool
  deriving DecidableEq

/-- One step of the EMA recurrence: `ema[i] = price * k + prev * (1 - k)`
(body of the `for` loop in `calculateEMA`). -/
def emaStep (k prev p : ℚ) : ℚ := p * k + prev * (1 - k)

/-- The EMA values after the seed, oldest first (the `for` loop of
`calculateEMA` carrying the previous EMA value). -/
def emaFrom (k : ℚ) (prev : ℚ) : List ℚ → List ℚ
  | [] => []
  | p :: rest =>
    let e := emaStep k prev p
    e :: emaFrom k e rest

/-- Source `calculateEMA(prices, period)`: empty on degenerate input,
otherwise an SMA seed over the first `min(period, N)` prices followed by
the exponential recurrence with multiplier `2 / (period + 1)`. -/
def calculateEMA (prices : List ℚ) (period : ℤ) : List ℚ :=
  if prices.length = 0 ∨ period ≤ 0 then []
  else
    let m : ℕ := min period.toNat prices.length
    let multiplier : ℚ := 2 / ((period : ℚ) + 1)
    let seed : ℚ := (prices.take m).sum / (m : ℚ)
    seed :: emaFrom multiplier seed prices.tail

/-- Source `calculateIndicators(candles)`: `null` below 676 candles, else
the last value of each of the five EMA series over the closes. -/
def calculateIndicators (candles : List CandleData) : Option TechnicalIndicators :=
  if candles.length < 676 then Option.none
  else
    let closes := candles.map (fun c => c.close)
    let lastIndex := closes.length - 1
    Option.some
      { ema12 := (calculateEMA closes 12).getD lastIndex 0
        ema144 := (calculateEMA closes 144).getD lastIndex 0
        ema169 := (calculateEMA closes 169).getD lastIndex 0
        ema576 := (calculateEMA closes 576).getD lastIndex 0
        ema676 := (calculateEMA closes 676).getD lastIndex 0 }

/-- The candle the detector evaluates: `candles[candles.length - 1]`. -/
def currentCandleOf (candles : List CandleData) : CandleData :=
  candles.getD (candles.length - 1) default

/-- Bullish stack test of `analyzeSignal`:
`ema12 > ema144 > ema169 > ema576 > ema676` (strict). -/
def bullishCond (ind : TechnicalIndicators) : Prop :=
  ind.ema12 > ind.ema144 ∧ ind.ema144 > ind.ema169 ∧
    ind.ema169 > ind.ema576 ∧ ind.ema576 > ind.ema676

/-- Bearish stack test of `analyzeSignal`:
`ema12 < ema144 < ema169 < ema576 < ema676` (strict). -/
def bearishCond (ind : TechnicalIndicators) : Prop :=
  ind.ema12 < ind.ema144 ∧ ind.ema144 < ind.ema169 ∧
    ind.ema169 < ind.ema576 ∧ ind.ema576 < ind.ema676

instance (ind : TechnicalIndicators) : Decidable (bullishCond ind) :=
  inferInstanceAs (Decidable (_ ∧ _ ∧ _ ∧ _))

instance (ind : TechnicalIndicators) : Decidable (bearishCond ind) :=
  inferInstanceAs (Decidable (_ ∧ _ ∧ _ ∧ _))

/-- The first `if/else if/else` chain of `analyzeSignal`, assigning
`this.longShort`. -/
def classifyAlignment (ind : TechnicalIndicators) : TrendAlignment :=
  if bullishCond ind then TrendAlignment.bullish
  else if bearishCond ind then TrendAlignment.bearish
  else TrendAlignment.none

/-- The signal/armed-flag decision of `analyzeSignal` (the
`if (this.longShort === ...)` cascade of the source): given the incoming
armed flag (`this.state === 1`), the snapshot and the newest candle, it
yields the emitted direction and the outgoing armed flag. -/
def tunnelStep (armed : Bool) (ind : TechnicalIndicators) (currentCandle : CandleData) :
    SignalType × Bool :=
  match classifyAlignment ind with
  | TrendAlignment.none => (SignalType.none, false)
  | TrendAlignment.bullish =>
    if armed = false then
      if currentCandle.low ≤ ind.ema144 ∧ currentCandle.close ≥ ind.ema12 then
        (SignalType.long, false)
      else if currentCandle.low ≤ ind.ema144 then
        (SignalType.none, true)
      else
        (SignalType.none, false)
    else
      if currentCandle.close ≥ ind.ema12 then
        (SignalType.long, false)
      else if ind.ema12 ≤ ind.ema144 then
        (SignalType.none, false)
      else
        (SignalType.none, true)
  | TrendAlignment.bearish =>
    if armed = false then
      if currentCandle.high ≥ ind.ema144 ∧ currentCandle.close ≤ ind.ema12 then
        (SignalType.short, false)
      else if currentCandle.high ≥ ind.ema144 then
        (SignalType.none, true)
      else
        (SignalType.none, false)
    else
      if currentCandle.close ≤ ind.ema12 then
        (SignalType.short, false)
      else if ind.ema12 ≥ ind.ema144 then
        (SignalType.none, false)
      else
        (SignalType.none, true)

/-- Source `VegasTunnel.analyzeSignal(candles)` as a pure transition:
given the detector state before the call and the candle series, it returns
the emitted signal (`none` = the source's `null`) and the state after the
call. The source mutates `this.longShort` to the freshly classified
alignment and `this.state` through the `tunnelStep` cascade, and always
returns a signal record carrying the newest candle's close and timestamp
and the snapshot. -/
def VegasTunnel.analyzeSignal (s : DetectorState) (candles : List CandleData) :
    Option VegasTunnelSignal × DetectorState :=
  if candles.length < 676 then (Option.none, s)
  else
    match calculateIndicators candles with
    | Option.none => (Option.none, s)
    | Option.some ind =>
      let currentCandle := currentCandleOf candles
      let step := tunnelStep s.armed ind currentCandle
      (Option.some
        { type := step.1
          price := currentCandle.close
          timestamp := currentCandle.timestamp
          indicators := ind },
       { alignment := classifyAlignment ind, armed := step.2 })

/-- The three take-profit levels (source return type of
`calculateFibonacciTargets`). -/
structure FibonacciTargets where
  target1 : ℚ
  target2 : ℚ
  target3 : ℚ
  deriving DecidableEq

/-- JavaScript truthiness of an optional number: `undefined` and `0` are
falsy, every other rational is truthy (`NaN` is outside the model). -/
def truthy : Option ℚ → Bool
  | Option.none => false
  | Option.some v => v != 0

/-- Source `calculateFibonacciTargets(entryPrice, direction, swingHigh,
swingLow)`: the swing range is used only when `swingHigh && swingLow` is
truthy, otherwise a 5% default range applies; the three targets use the
multipliers 1.0, 1.618 and 2.0. -/
def calculateFibonacciTargets (entryPrice : ℚ) (direction : Direction)
    (swingHigh swingLow : Option ℚ) : FibonacciTargets :=
  match direction with
  | Direction.long =>
    let baseRange : ℚ :=
      if truthy swingHigh && truthy swingLow then
        |swingHigh.getD 0 - swingLow.getD 0|
      else entryPrice * (5 / 100)
    { target1 := entryPrice + baseRange * 1
      target2 := entryPrice + baseRange * (1618 / 1000)
      target3 := entryPrice + baseRange * 2 }
  | Direction.short =>
    let baseRange : ℚ :=
      if truthy swingHigh && truthy swingLow then
        |swingHigh.getD 0 - swingLow.getD 0|
      else entryPrice * (5 / 100)
    { target1 := entryPrice - baseRange * 1
      target2 := entryPrice - baseRange * (1618 / 1000)
      target3 := entryPrice - baseRange * 2 }

/-- Spec-side target table (§4.4 of the spec): given an entry price, a
direction and a range, the targets are entry ± range·{1.0, 1.618, 2.0}. -/
def specFibTargets (entry : ℚ) (direction : Direction) (range : ℚ) : FibonacciTargets :=
  match direction with
  | Direction.long =>
    ⟨entry + range * 1, entry + range * (1618 / 1000), entry + range * 2⟩
  | Direction.short =>
    ⟨entry - range * 1, entry - range * (1618 / 1000), entry - range * 2⟩

/-! ### Integer refinement of the EMA computation

`calculateEMA` over rationals that are casts of integers is mirrored by an
exact computation on unreduced numerator/denominator pairs of integers.
This keeps witness evaluation inside kernel-computable integer
arithmetic. -/

/-- Integer mirror of `emaFrom`: one step maps the pair `(n, d)`
(representing `n / d`) and an integer price `p` to
`((2·p·d + n·(P−1)), d·(P+1))`, which represents
`p·k + (n/d)·(1−k)` for `k = 2/(P+1)`. The trivially true guard makes
strict evaluation cache-friendly for kernel reduction. -/
def emaZFrom (P : ℤ) (prev : ℤ × ℤ) : List ℤ → List (ℤ × ℤ)
  | [] => []
  | p :: rest =>
    let n : ℤ := 2 * p * prev.2 + prev.1 * (P - 1)
    let d : ℤ := prev.2 * (P + 1)
    if n = n ∧ d = d then (n, d) :: emaZFrom P (n, d) rest
    else []

/-- Tail-recursive integer sum with a trivially true guard, so that the
accumulator is forced during kernel reduction. -/
def sumZAux (acc : ℤ) : List ℤ → ℤ
  | [] => acc
  | a :: rest =>
    let s : ℤ := acc + a
    if s = s then sumZAux s rest else 0

/-- Strict sum of an integer list. -/
def sumZ (l : List ℤ) : ℤ := sumZAux 0 l

/-- Integer mirror of `calculateEMA` on integer price lists. -/
def calculateEMAZ (zs : List ℤ) (P : ℤ) : List (ℤ × ℤ) :=
  if zs.length = 0 ∨ P ≤ 0 then []
  else
    let m : ℕ := min P.toNat zs.length
    let seed : ℤ × ℤ := (sumZ (zs.take m), (m : ℤ))
    seed :: emaZFrom P seed zs.tail

/-- The rational represented by an integer pair. -/
def ratOf (e : ℤ × ℤ) : ℚ := (e.1 : ℚ) / (e.2 : ℚ)

/-- The pair representing the EMA value at index `i`. -/
def emaPairAt (zs : List ℤ) (P : ℤ) (i : ℕ) : ℤ × ℤ :=
  (calculateEMAZ zs P).getD i (0, 1)

/-! ### Concrete evaluation series

Five concrete 676-candle series used to evaluate the detector on real
inputs: a rising market (bullish stack, close back above `ema12`), a
rising market whose newest candle closes below `ema12` (arming retest), a
falling market (bearish stack), a falling market whose newest candle
closes back above `ema12`, and a flat market (no alignment). -/

/-- A candle whose four prices all equal `c`. -/
def flatCandle (t : ℕ) (c : ℤ) : CandleData :=
  { timestamp := t, «open» := c, high := c, low := c, close := c, volume := 0 }

/-- Newest candle of the rising series: touched the tunnel (`low = 0`) and
closed at the top. -/
def upLastCandle : CandleData :=
  { timestamp := 675, «open» := 675, high := 675, low := 0, close := 675, volume := 0 }

/-- Rising series: closes 0, 1, …, 675. -/
def upCandles : List CandleData :=
  (List.range 676).map (fun i => if i = 675 then upLastCandle else flatCandle i (i : ℤ))

/-- The closes of `upCandles` as integers. -/
def upCloses : List ℤ := (List.range 676).map (fun (i : ℕ) => (i : ℤ))

/-- The snapshot of `upCandles`, written through the integer pairs. -/
def upInd : TechnicalIndicators :=
  { ema12 := ratOf (emaPairAt upCloses 12 675)
    ema144 := ratOf (emaPairAt upCloses 144 675)
    ema169 := ratOf (emaPairAt upCloses 169 675)
    ema576 := ratOf (emaPairAt upCloses 576 675)
    ema676 := ratOf (emaPairAt upCloses 676 675) }

/-- Newest candle of the arming series: touched the tunnel (`low = 0`) but
closed at 600, below the fast EMA. -/
def armLastCandle : CandleData :=
  { timestamp := 675, «open» := 600, high := 675, low := 0, close := 600, volume := 0 }

/-- Arming series: closes 0, 1, …, 674, then 600. -/
def armCandles : List CandleData :=
  (List.range 676).map (fun i => if i = 675 then armLastCandle else flatCandle i (i : ℤ))

/-- The closes of `armCandles` as integers. -/
def armCloses : List ℤ :=
  (List.range 676).map (fun (i : ℕ) => if i = 675 then (600 : ℤ) else (i : ℤ))

/-- The snapshot of `armCandles`. -/
def armInd : TechnicalIndicators :=
  { ema12 := ratOf (emaPairAt armCloses 12 675)
    ema144 := ratOf (emaPairAt armCloses 144 675)
    ema169 := ratOf (emaPairAt armCloses 169 675)
    ema576 := ratOf (emaPairAt armCloses 576 675)
    ema676 := ratOf (emaPairAt armCloses 676 675) }

/-- Falling series: closes 675, 674, …, 0 (newest candle is all-zero, so
its high never reaches the tunnel). -/
def downCandles : List CandleData :=
  (List.range 676).map (fun i => flatCandle i (675 - (i : ℤ)))

/-- The closes of `downCandles` as integers. -/
def downCloses : List ℤ := (List.range 676).map (fun (i : ℕ) => 675 - (i : ℤ))

/-- The snapshot of `downCandles`. -/
def downInd : TechnicalIndicators :=
  { ema12 := ratOf (emaPairAt downCloses 12 675)
    ema144 := ratOf (emaPairAt downCloses 144 675)
    ema169 := ratOf (emaPairAt downCloses 169 675)
    ema576 := ratOf (emaPairAt downCloses 576 675)
    ema676 := ratOf (emaPairAt downCloses 676 675) }

/-- Falling series whose newest candle closes back up at 80, above the
fast EMA. -/
def down2Candles : List CandleData :=
  (List.range 676).map (fun i =>
    if i = 675 then flatCandle 675 80 else flatCandle i (675 - (i : ℤ)))

/-- The closes of `down2Candles` as integers. -/
def down2Closes : List ℤ :=
  (List.range 676).map (fun (i : ℕ) => if i = 675 then (80 : ℤ) else 675 - (i : ℤ))

/-- The snapshot of `down2Candles`. -/
def down2Ind : TechnicalIndicators :=
  { ema12 := ratOf (emaPairAt down2Closes 12 675)
    ema144 := ratOf (emaPairAt down2Closes 144 675)
    ema169 := ratOf (emaPairAt down2Closes 169 675)
    ema576 := ratOf (emaPairAt down2Closes 576 675)
    ema676 := ratOf (emaPairAt down2Closes 676 675) }

/-- Flat series: 676 candles all at price 5. -/
def constCandles : List CandleData :=
  (List.range 676).map (fun i => flatCandle i 5)

/-- The closes of `constCandles` as integers. -/
def constCloses : List ℤ := (List.range 676).map (fun (_ : ℕ) => (5 : ℤ))

/-- The snapshot of `constCandles`. -/
def constInd : TechnicalIndicators :=
  { ema12 := ratOf (emaPairAt constCloses 12 675)
    ema144 := ratOf (emaPairAt constCloses 144 675)
    ema169 := ratOf (emaPairAt constCloses 169 675)
    ema576 := ratOf (emaPairAt constCloses 576 675)
    ema676 := ratOf (emaPairAt constCloses 676 675) }

/-! ### Structural lemmas about `calculateEMA` -/

/-- The loop produces one output per input price. -/
theorem emaFrom_length (k prev : ℚ) (l : List ℚ) : (emaFrom k prev l).length = l.length := by
  induction l generalizing prev with
  | nil => rfl
  | cons p rest ih => simp [emaFrom, ih]

/-- Each loop output is one `emaStep` applied to the previous output (the
carried value for index 0) and the price at the same index. -/
theorem emaFrom_getD (k : ℚ) (l : List ℚ) (prev : ℚ) (j : ℕ) (hj : j < l.length) :
    (emaFrom k prev l).getD j 0 =
      emaStep k ((prev :: emaFrom k prev l).getD j 0) (l.getD j 0) := by
  induction l generalizing prev j with
  | nil => simp at hj
  | cons p rest ih =>
    cases j with
    | zero => simp [emaFrom]
    | succ j' =>
      have hj' : j' < rest.length := by simpa using hj
      simpa [emaFrom] using ih (emaStep k prev p) j' hj'

/-! ### Integer refinement lemmas -/

/-- The guarded tail-recursive sum accumulates the plain sum. -/
theorem sumZAux_eq (l : List ℤ) : ∀ acc, sumZAux acc l = acc + l.sum := by
  induction l with
  | nil => simp [sumZAux]
  | cons a rest ih =>
    intro acc
    simp [sumZAux, ih, List.sum_cons]
    ring

/-- The strict sum equals `List.sum`. -/
theorem sumZ_eq (l : List ℤ) : sumZ l = l.sum := by
  simp [sumZ, sumZAux_eq]

/-- One rational EMA step on a represented pair is the integer pair step. -/
theorem emaStep_cast (P : ℤ) (hP : 1 ≤ P) (n d p : ℤ) (hd : 0 < d) :
    emaStep (2 / ((P : ℚ) + 1)) (ratOf (n, d)) ((p : ℤ) : ℚ) =
      ratOf (2 * p * d + n * (P - 1), d * (P + 1)) := by
  have hd0 : ((d : ℤ) : ℚ) ≠ 0 := by
    exact_mod_cast hd.ne'
  have hP0 : ((P : ℚ) + 1) ≠ 0 := by
    have h1 : (1 : ℚ) ≤ (P : ℚ) := by exact_mod_cast hP
    linarith
  unfold emaStep ratOf
  push_cast
  field_simp
  ring

/-- The whole loop commutes with the pair representation. -/
theorem emaFrom_cast (P : ℤ) (hP : 1 ≤ P) :
    ∀ (zs : List ℤ) (prev : ℤ × ℤ), 0 < prev.2 →
      emaFrom (2 / ((P : ℚ) + 1)) (ratOf prev) (zs.map Int.cast) =
        (emaZFrom P prev zs).map ratOf := by
  intro zs
  induction zs with
  | nil => intro prev _; rfl
  | cons p rest ih =>
    intro prev hprev
    obtain ⟨n, d⟩ := prev
    simp only [List.map_cons, emaFrom, emaZFrom]
    rw [emaStep_cast P hP n d p hprev]
    rw [ih (2 * p * d + n * (P - 1), d * (P + 1))
      (mul_pos hprev (by omega))]
    simp

/-- `calculateEMA` on casts of integer prices is represented exactly by
`calculateEMAZ`. -/
theorem calculateEMA_cast (zs : List ℤ) (P : ℤ) (hP : 1 ≤ P) :
    calculateEMA (zs.map Int.cast) P = (calculateEMAZ zs P).map ratOf := by
  cases zs with
  | nil => simp [calculateEMA, calculateEMAZ]
  | cons a l =>
    have hcond : ¬(((a :: l).map (Int.cast : ℤ → ℚ)).length = 0 ∨ P ≤ 0) := by
      push_neg
      exact ⟨by simp, by omega⟩
    have hcondZ : ¬((a :: l).length = 0 ∨ P ≤ 0) := by
      push_neg
      exact ⟨by simp, by omega⟩
    rw [calculateEMA, calculateEMAZ, if_neg hcond, if_neg hcondZ]
    simp only [List.length_map]
    have hseed :
        (((a :: l).map (Int.cast : ℤ → ℚ)).take (min P.toNat (a :: l).length)).sum
            / ((min P.toNat (a :: l).length : ℕ) : ℚ)
          = ratOf (sumZ ((a :: l).take (min P.toNat (a :: l).length)),
              ((min P.toNat (a :: l).length : ℕ) : ℤ)) := by
      rw [sumZ_eq, ← List.map_take, ← Int.cast_list_sum]
      unfold ratOf
      push_cast
      rfl
    rw [hseed, List.map_cons]
    congr 1
    simp only [List.tail_cons]
    have hm : (0 : ℤ) < ((min P.toNat (a :: l).length : ℕ) : ℤ) := by
      have h1 : 1 ≤ P.toNat := by omega
      have h2 : 1 ≤ (a :: l).length := by simp
      have : 1 ≤ min P.toNat (a :: l).length := le_min h1 h2
      omega
    exact emaFrom_cast P hP l _ hm

/-- Index-level form of the refinement (defaults agree as well). -/
theorem calculateEMA_getD_cast (zs : List ℤ) (P : ℤ) (hP : 1 ≤ P) (i : ℕ) :
    (calculateEMA (zs.map Int.cast) P).getD i 0 = ratOf (emaPairAt zs P i) := by
  rw [calculateEMA_cast zs P hP, emaPairAt]
  have h0 : (0 : ℚ) = ratOf (0, 1) := by norm_num [ratOf]
  rw [h0, List.getD_map]

/-- All pair denominators produced by the loop are positive. -/
theorem emaZFrom_den_pos (P : ℤ) (hP : 1 ≤ P) :
    ∀ (zs : List ℤ) (prev : ℤ × ℤ), 0 < prev.2 →
      ∀ e ∈ emaZFrom P prev zs, 0 < e.2 := by
  intro zs
  induction zs with
  | nil =>
    intro prev _ e he
    simp [emaZFrom] at he
  | cons p rest ih =>
    intro prev hprev e he
    have hpos : 0 < prev.2 * (P + 1) := mul_pos hprev (by omega)
    simp only [emaZFrom, and_self, if_true] at he
    rcases List.mem_cons.mp he with he | he
    · subst he
      exact hpos
    · exact ih _ hpos e he

/-- All pair denominators of `calculateEMAZ` are positive. -/
theorem calculateEMAZ_den_pos (zs : List ℤ) (P : ℤ) (hP : 1 ≤ P) :
    ∀ e ∈ calculateEMAZ zs P, 0 < e.2 := by
  intro e he
  unfold calculateEMAZ at he
  split at he
  · simp at he
  · next h =>
    push_neg at h
    simp only [List.mem_cons] at he
    have hm : (0 : ℤ) < ((min P.toNat zs.length : ℕ) : ℤ) := by
      have h1 : 1 ≤ P.toNat := by omega
      have h2 : 1 ≤ zs.length := Nat.one_le_iff_ne_zero.mpr h.1
      have : 1 ≤ min P.toNat zs.length := le_min h1 h2
      omega
    rcases he with he | he
    · rw [he]
      exact hm
    · exact emaZFrom_den_pos P (by omega) zs.tail _ hm e he

/-- The pair at any index has a positive denominator (also the default). -/
theorem emaPairAt_den_pos (zs : List ℤ) (P : ℤ) (hP : 1 ≤ P) (i : ℕ) :
    0 < (emaPairAt zs P i).2 := by
  unfold emaPairAt
  rcases h : (calculateEMAZ zs P)[i]? with _ | e
  · rw [List.getD_eq_getElem?_getD, h]
    norm_num
  · rw [List.getD_eq_getElem?_getD, h]
    exact calculateEMAZ_den_pos zs P hP e (List.getElem?_mem h)

/-- Strict comparison of represented rationals is integer
cross-multiplication. -/
theorem ratOf_lt_ratOf (a b : ℤ × ℤ) (ha : 0 < a.2) (hb : 0 < b.2) :
    ratOf a < ratOf b ↔ a.1 * b.2 < b.1 * a.2 := by
  unfold ratOf
  rw [div_lt_div_iff₀ (by exact_mod_cast ha) (by exact_mod_cast hb),
    ← Int.cast_mul, ← Int.cast_mul, Int.cast_lt]

/-- Weak comparison of represented rationals is integer
cross-multiplication. -/
theorem ratOf_le_ratOf (a b : ℤ × ℤ) (ha : 0 < a.2) (hb : 0 < b.2) :
    ratOf a ≤ ratOf b ↔ a.1 * b.2 ≤ b.1 * a.2 := by
  unfold ratOf
  rw [div_le_div_iff₀ (by exact_mod_cast ha) (by exact_mod_cast hb),
    ← Int.cast_mul, ← Int.cast_mul, Int.cast_le]

/-- Integer-literal lower bound against a represented rational. -/
theorem intCast_le_ratOf (z : ℤ) (b : ℤ × ℤ) (hb : 0 < b.2) :
    ((z : ℤ) : ℚ) ≤ ratOf b ↔ z * b.2 ≤ b.1 := by
  have h1 : ((z : ℤ) : ℚ) = ratOf (z, 1) := by simp [ratOf]
  rw [h1, ratOf_le_ratOf (z, 1) b one_pos hb]
  simp

/-- Integer-literal upper bound against a represented rational. -/
theorem ratOf_le_intCast (a : ℤ × ℤ) (z : ℤ) (ha : 0 < a.2) :
    ratOf a ≤ ((z : ℤ) : ℚ) ↔ a.1 ≤ z * a.2 := by
  have h1 : ((z : ℤ) : ℚ) = ratOf (z, 1) := by simp [ratOf]
  rw [h1, ratOf_le_ratOf a (z, 1) ha one_pos]
  simp

/-- Integer-literal strict lower bound against a represented rational. -/
theorem intCast_lt_ratOf (z : ℤ) (b : ℤ × ℤ) (hb : 0 < b.2) :
    ((z : ℤ) : ℚ) < ratOf b ↔ z * b.2 < b.1 := by
  have h1 : ((z : ℤ) : ℚ) = ratOf (z, 1) := by simp [ratOf]
  rw [h1, ratOf_lt_ratOf (z, 1) b one_pos hb]
  simp

/-- Integer-literal strict upper bound against a represented rational. -/
theorem ratOf_lt_intCast (a : ℤ × ℤ) (z : ℤ) (ha : 0 < a.2) :
    ratOf a < ((z : ℤ) : ℚ) ↔ a.1 < z * a.2 := by
  have h1 : ((z : ℤ) : ℚ) = ratOf (z, 1) := by simp [ratOf]
  rw [h1, ratOf_lt_ratOf a (z, 1) ha one_pos]
  simp

/-! ### Snapshot lemmas -/

/-- A snapshot is only produced from at least 676 candles. -/
theorem length_of_calculateIndicators (candles : List CandleData) (ind : TechnicalIndicators)
    (h : calculateIndicators candles = Option.some ind) : 676 ≤ candles.length := by
  by_contra hlt
  rw [calculateIndicators, if_pos (by omega)] at h
  exact Option.noConfusion h

/-- Explicit form of the snapshot for a long-enough series. -/
theorem calculateIndicators_of_le (candles : List CandleData) (h : 676 ≤ candles.length) :
    calculateIndicators candles = Option.some
      { ema12 := (calculateEMA (candles.map (fun c => c.close)) 12).getD (candles.length - 1) 0
        ema144 := (calculateEMA (candles.map (fun c => c.close)) 144).getD (candles.length - 1) 0
        ema169 := (calculateEMA (candles.map (fun c => c.close)) 169).getD (candles.length - 1) 0
        ema576 := (calculateEMA (candles.map (fun c => c.close)) 576).getD (candles.length - 1) 0
        ema676 := (calculateEMA (candles.map (fun c => c.close)) 676).getD (candles.length - 1) 0 } := by
  rw [calculateIndicators, if_neg (by omega)]
  simp only [List.length_map]

/-! ### Evaluation of the rising series -/

/-- The rising series has exactly 676 candles. -/
theorem upCandles_length : upCandles.length = 676 := by
  simp [upCandles]

/-- The closes of the rising series are the casts of `upCloses`. -/
theorem upCandles_closes : upCandles.map (fun c => c.close) = upCloses.map Int.cast := by
  rw [upCandles, upCloses]
  simp only [List.map_map]
  refine List.map_congr_left (fun i _ => ?_)
  rcases eq_or_ne i 675 with h | h
  · subst h
    simp [Function.comp, flatCandle, upLastCandle]
  · simp [h, Function.comp, flatCandle, upLastCandle]

/-- The newest candle of the rising series. -/
theorem upCandles_current : currentCandleOf upCandles = upLastCandle := by
  rw [currentCandleOf, upCandles_length]
  show upCandles.getD 675 default = upLastCandle
  simp [upCandles]

/-- The snapshot of the rising series is `upInd`. -/
theorem upCandles_ind : calculateIndicators upCandles = Option.some upInd := by
  rw [calculateIndicators_of_le upCandles (by rw [upCandles_length]), upCandles_length,
    upCandles_closes]
  simp only [show (676 - 1 : ℕ) = 675 from rfl]
  rw [calculateEMA_getD_cast upCloses 12 (by norm_num) 675,
    calculateEMA_getD_cast upCloses 144 (by norm_num) 675,
    calculateEMA_getD_cast upCloses 169 (by norm_num) 675,
    calculateEMA_getD_cast upCloses 576 (by norm_num) 675,
    calculateEMA_getD_cast upCloses 676 (by norm_num) 675]
  rfl

set_option maxRecDepth 8000 in
/-- The rising series classifies bullish. -/
theorem upInd_bullish : bullishCond upInd := by
  rw [bullishCond, upInd]
  dsimp only
  simp only [gt_iff_lt]
  refine ⟨?_, ?_, ?_, ?_⟩ <;>
    rw [ratOf_lt_ratOf _ _ (emaPairAt_den_pos _ _ (by norm_num) _)
      (emaPairAt_den_pos _ _ (by norm_num) _)] <;>
    decide

set_option maxRecDepth 8000 in
/-- The newest rising candle touched the tunnel: its low is below `ema144`. -/
theorem upLast_low_le : upLastCandle.low ≤ upInd.ema144 := by
  show (0 : ℚ) ≤ upInd.ema144
  rw [upInd]
  dsimp only
  rw [show (0 : ℚ) = ((0 : ℤ) : ℚ) by norm_num,
    intCast_le_ratOf _ _ (emaPairAt_den_pos _ _ (by norm_num) _)]
  decide

set_option maxRecDepth 8000 in
/-- The newest rising candle closed above the fast EMA. -/
theorem upLast_close_ge : upLastCandle.close ≥ upInd.ema12 := by
  show upInd.ema12 ≤ (675 : ℚ)
  rw [upInd]
  dsimp only
  rw [show (675 : ℚ) = ((675 : ℤ) : ℚ) by norm_num,
    ratOf_le_intCast _ _ (emaPairAt_den_pos _ _ (by norm_num) _)]
  decide

/-! ### Evaluation of the arming series -/

/-- The arming series has exactly 676 candles. -/
theorem armCandles_length : armCandles.length = 676 := by
  simp [armCandles]

/-- The closes of the arming series are the casts of `armCloses`. -/
theorem armCandles_closes : armCandles.map (fun c => c.close) = armCloses.map Int.cast := by
  rw [armCandles, armCloses]
  simp only [List.map_map]
  refine List.map_congr_left (fun i _ => ?_)
  rcases eq_or_ne i 675 with h | h
  · subst h
    simp [Function.comp, flatCandle, armLastCandle]
  · simp [h, Function.comp, flatCandle, armLastCandle]

/-- The newest candle of the arming series. -/
theorem armCandles_current : currentCandleOf armCandles = armLastCandle := by
  rw [currentCandleOf, armCandles_length]
  show armCandles.getD 675 default = armLastCandle
  simp [armCandles]

/-- The snapshot of the arming series is `armInd`. -/
theorem armCandles_ind : calculateIndicators armCandles = Option.some armInd := by
  rw [calculateIndicators_of_le armCandles (by rw [armCandles_length]), armCandles_length,
    armCandles_closes]
  simp only [show (676 - 1 : ℕ) = 675 from rfl]
  rw [calculateEMA_getD_cast armCloses 12 (by norm_num) 675,
    calculateEMA_getD_cast armCloses 144 (by norm_num) 675,
    calculateEMA_getD_cast armCloses 169 (by norm_num) 675,
    calculateEMA_getD_cast armCloses 576 (by norm_num) 675,
    calculateEMA_getD_cast armCloses 676 (by norm_num) 675]
  rfl

set_option maxRecDepth 8000 in
/-- The arming series classifies bullish. -/
theorem armInd_bullish : bullishCond armInd := by
  rw [bullishCond, armInd]
  dsimp only
  simp only [gt_iff_lt]
  refine ⟨?_, ?_, ?_, ?_⟩ <;>
    rw [ratOf_lt_ratOf _ _ (emaPairAt_den_pos _ _ (by norm_num) _)
      (emaPairAt_den_pos _ _ (by norm_num) _)] <;>
    decide

set_option maxRecDepth 8000 in
/-- The newest arming candle touched the tunnel: its low is below `ema144`. -/
theorem armLast_low_le : armLastCandle.low ≤ armInd.ema144 := by
  show (0 : ℚ) ≤ armInd.ema144
  rw [armInd]
  dsimp only
  rw [show (0 : ℚ) = ((0 : ℤ) : ℚ) by norm_num,
    intCast_le_ratOf _ _ (emaPairAt_den_pos _ _ (by norm_num) _)]
  decide

set_option maxRecDepth 8000 in
/-- The newest arming candle closed below the fast EMA. -/
theorem armLast_close_lt : armLastCandle.close < armInd.ema12 := by
  show (600 : ℚ) < armInd.ema12
  rw [armInd]
  dsimp only
  rw [show (600 : ℚ) = ((600 : ℤ) : ℚ) by norm_num,
    intCast_lt_ratOf _ _ (emaPairAt_den_pos _ _ (by norm_num) _)]
  decide

/-! ### Evaluation of the falling series -/

/-- The falling series has exactly 676 candles. -/
theorem downCandles_length : downCandles.length = 676 := by
  simp [downCandles]

/-- The closes of the falling series are the casts of `downCloses`. -/
theorem downCandles_closes : downCandles.map (fun c => c.close) = downCloses.map Int.cast := by
  rw [downCandles, downCloses]
  simp only [List.map_map]
  refine List.map_congr_left (fun i _ => ?_)
  simp [Function.comp, flatCandle]

/-- The newest candle of the falling series. -/
theorem downCandles_current : currentCandleOf downCandles = flatCandle 675 0 := by
  rw [currentCandleOf, downCandles_length]
  show downCandles.getD 675 default = flatCandle 675 0
  simp [downCandles]

/-- The snapshot of the falling series is `downInd`. -/
theorem downCandles_ind : calculateIndicators downCandles = Option.some downInd := by
  rw [calculateIndicators_of_le downCandles (by rw [downCandles_length]), downCandles_length,
    downCandles_closes]
  simp only [show (676 - 1 : ℕ) = 675 from rfl]
  rw [calculateEMA_getD_cast downCloses 12 (by norm_num) 675,
    calculateEMA_getD_cast downCloses 144 (by norm_num) 675,
    calculateEMA_getD_cast downCloses 169 (by norm_num) 675,
    calculateEMA_getD_cast downCloses 576 (by norm_num) 675,
    calculateEMA_getD_cast downCloses 676 (by norm_num) 675]
  rfl

set_option maxRecDepth 8000 in
/-- The falling series classifies bearish. -/
theorem downInd_bearish : bearishCond downInd := by
  rw [bearishCond, downInd]
  dsimp only
  refine ⟨?_, ?_, ?_, ?_⟩ <;>
    rw [ratOf_lt_ratOf _ _ (emaPairAt_den_pos _ _ (by norm_num) _)
      (emaPairAt_den_pos _ _ (by norm_num) _)] <;>
    decide

set_option maxRecDepth 8000 in
/-- The newest falling candle closed below the fast EMA. -/
theorem downLast_close_le : (flatCandle 675 0).close ≤ downInd.ema12 := by
  show ((0 : ℤ) : ℚ) ≤ downInd.ema12
  rw [downInd]
  dsimp only
  rw [intCast_le_ratOf _ _ (emaPairAt_den_pos _ _ (by norm_num) _)]
  decide

set_option maxRecDepth 8000 in
/-- The newest falling candle's high never reached the tunnel. -/
theorem downLast_high_lt : (flatCandle 675 0).high < downInd.ema144 := by
  show ((0 : ℤ) : ℚ) < downInd.ema144
  rw [downInd]
  dsimp only
  rw [intCast_lt_ratOf _ _ (emaPairAt_den_pos _ _ (by norm_num) _)]
  decide

/-! ### Evaluation of the recovering series -/

/-- The recovering series has exactly 676 candles. -/
theorem down2Candles_length : down2Candles.length = 676 := by
  simp [down2Candles]

/-- The closes of the recovering series are the casts of `down2Closes`. -/
theorem down2Candles_closes :
    down2Candles.map (fun c => c.close) = down2Closes.map Int.cast := by
  rw [down2Candles, down2Closes]
  simp only [List.map_map]
  refine List.map_congr_left (fun i _ => ?_)
  rcases eq_or_ne i 675 with h | h
  · subst h
    simp [Function.comp, flatCandle]
  · simp [h, Function.comp, flatCandle]

/-- The newest candle of the recovering series. -/
theorem down2Candles_current : currentCandleOf down2Candles = flatCandle 675 80 := by
  rw [currentCandleOf, down2Candles_length]
  show down2Candles.getD 675 default = flatCandle 675 80
  simp [down2Candles]

/-- The snapshot of the recovering series is `down2Ind`. -/
theorem down2Candles_ind : calculateIndicators down2Candles = Option.some down2Ind := by
  rw [calculateIndicators_of_le down2Candles (by rw [down2Candles_length]), down2Candles_length,
    down2Candles_closes]
  simp only [show (676 - 1 : ℕ) = 675 from rfl]
  rw [calculateEMA_getD_cast down2Closes 12 (by norm_num) 675,
    calculateEMA_getD_cast down2Closes 144 (by norm_num) 675,
    calculateEMA_getD_cast down2Closes 169 (by norm_num) 675,
    calculateEMA_getD_cast down2Closes 576 (by norm_num) 675,
    calculateEMA_getD_cast down2Closes 676 (by norm_num) 675]
  rfl

set_option maxRecDepth 8000 in
/-- The recovering series still classifies bearish. -/
theorem down2Ind_bearish : bearishCond down2Ind := by
  rw [bearishCond, down2Ind]
  dsimp only
  refine ⟨?_, ?_, ?_, ?_⟩ <;>
    rw [ratOf_lt_ratOf _ _ (emaPairAt_den_pos _ _ (by norm_num) _)
      (emaPairAt_den_pos _ _ (by norm_num) _)] <;>
    decide

set_option maxRecDepth 8000 in
/-- The newest recovering candle closed back above the fast EMA. -/
theorem down2Last_close_gt : down2Ind.ema12 < (flatCandle 675 80).close := by
  show down2Ind.ema12 < ((80 : ℤ) : ℚ)
  rw [down2Ind]
  dsimp only
  rw [ratOf_lt_intCast _ _ (emaPairAt_den_pos _ _ (by norm_num) _)]
  decide

/-! ### Evaluation of the flat series -/

/-- The flat series has exactly 676 candles. -/
theorem constCandles_length : constCandles.length = 676 := by
  simp [constCandles]

/-- The closes of the flat series are the casts of `constCloses`. -/
theorem constCandles_closes :
    constCandles.map (fun c => c.close) = constCloses.map Int.cast := by
  rw [constCandles, constCloses]
  simp only [List.map_map]
  refine List.map_congr_left (fun i _ => ?_)
  simp [Function.comp, flatCandle]

/-- The snapshot of the flat series is `constInd`. -/
theorem constCandles_ind : calculateIndicators constCandles = Option.some constInd := by
  rw [calculateIndicators_of_le constCandles (by rw [constCandles_length]), constCandles_length,
    constCandles_closes]
  simp only [show (676 - 1 : ℕ) = 675 from rfl]
  rw [calculateEMA_getD_cast constCloses 12 (by norm_num) 675,
    calculateEMA_getD_cast constCloses 144 (by norm_num) 675,
    calculateEMA_getD_cast constCloses 169 (by norm_num) 675,
    calculateEMA_getD_cast constCloses 576 (by norm_num) 675,
    calculateEMA_getD_cast constCloses 676 (by norm_num) 675]
  rfl

set_option maxRecDepth 8000 in
/-- The flat series does not classify bullish: no strict inequality holds. -/
theorem constInd_not_bullish : ¬ bullishCond constInd := by
  rw [bullishCond, constInd]
  dsimp only
  simp only [gt_iff_lt]
  intro h
  have h1 := h.1
  rw [ratOf_lt_ratOf _ _ (emaPairAt_den_pos _ _ (by norm_num) _)
    (emaPairAt_den_pos _ _ (by norm_num) _)] at h1
  exact absurd h1 (by decide)

set_option maxRecDepth 8000 in
/-- The flat series does not classify bearish either. -/
theorem constInd_not_bearish : ¬ bearishCond constInd := by
  rw [bearishCond, constInd]
  dsimp only
  intro h
  have h1 := h.1
  rw [ratOf_lt_ratOf _ _ (emaPairAt_den_pos _ _ (by norm_num) _)
    (emaPairAt_den_pos _ _ (by norm_num) _)] at h1
  exact absurd h1 (by decide)

/-! ### Unfolding helpers for the claim proofs -/

/-- With a snapshot available, one detector call is exactly the
`tunnelStep` outcome together with the reclassified alignment. -/
theorem analyzeSignal_eq_some (s : DetectorState) (candles : List CandleData)
    (ind : TechnicalIndicators) (hind : calculateIndicators candles = Option.some ind) :
    VegasTunnel.analyzeSignal s candles =
      (Option.some
        { type := (tunnelStep s.armed ind (currentCandleOf candles)).1
          price := (currentCandleOf candles).close
          timestamp := (currentCandleOf candles).timestamp
          indicators := ind },
       { alignment := classifyAlignment ind,
         armed := (tunnelStep s.armed ind (currentCandleOf candles)).2 }) := by
  have hlen : ¬ candles.length < 676 := by
    have := length_of_calculateIndicators candles ind hind
    omega
  rw [VegasTunnel.analyzeSignal, if_neg hlen, hind]

/-- The EMA recurrence at any index `i ≥ 1`. -/
theorem calculateEMA_getD_succ (prices : List ℚ) (period : ℤ) (i : ℕ)
    (hP : 0 < period) (h1 : 1 ≤ i) (hiN : i < prices.length) :
    (calculateEMA prices period).getD i 0 =
      prices.getD i 0 * (2 / ((period : ℚ) + 1)) +
        (calculateEMA prices period).getD (i - 1) 0 * (1 - 2 / ((period : ℚ) + 1)) := by
  cases prices with
  | nil => simp at hiN
  | cons a l =>
    have hcond : ¬((a :: l).length = 0 ∨ period ≤ 0) := by
      push_neg
      exact ⟨by simp, by omega⟩
    obtain ⟨j, rfl⟩ : ∃ j, i = j + 1 := ⟨i - 1, by omega⟩
    rw [calculateEMA, if_neg hcond]
    simp only [List.getD_cons_succ, List.tail_cons, Nat.add_sub_cancel]
    have hj : j < l.length := by
      simpa using hiN
    rw [emaFrom_getD _ l _ j hj, emaStep]

/-! ### Claim theorems -/

/-- C4: for every price sequence of length N ≥ 1 and every period P > 0,
`calculateEMA` returns exactly N values, seeds index 0 with the arithmetic
mean of the first `min(P, N)` prices, and satisfies
`ema[i] = price[i]·k + ema[i-1]·(1-k)` with `k = 2/(P+1)` at every
index i ≥ 1. -/
theorem calculateEMA_length_seed_recurrence (prices : List ℚ) (period : ℤ)
    (hN : 1 ≤ prices.length) (hP : 0 < period) :
    (calculateEMA prices period).length = prices.length ∧
    (calculateEMA prices period).getD 0 0 =
      (prices.take (min period.toNat prices.length)).sum
        / ((min period.toNat prices.length : ℕ) : ℚ) ∧
    ∀ i : ℕ, 1 ≤ i → i < prices.length →
      (calculateEMA prices period).getD i 0 =
        prices.getD i 0 * (2 / ((period : ℚ) + 1)) +
          (calculateEMA prices period).getD (i - 1) 0 * (1 - 2 / ((period : ℚ) + 1)) := by
  cases prices with
  | nil => simp at hN
  | cons a l =>
    have hcond : ¬((a :: l).length = 0 ∨ period ≤ 0) := by
      push_neg
      exact ⟨by simp, by omega⟩
    refine ⟨?_, ?_, fun i h1 hiN => calculateEMA_getD_succ (a :: l) period i hP h1 hiN⟩
    · rw [calculateEMA, if_neg hcond]
      simp [emaFrom_length]
    · rw [calculateEMA, if_neg hcond]
      rfl

/-- C4 witness: the contract evaluated at prices `[4, 8]` and period 3. -/
theorem calculateEMA_length_seed_recurrence_witness :
    (calculateEMA [4, 8] 3).length = ([4, 8] : List ℚ).length ∧
    (calculateEMA [4, 8] 3).getD 0 0 =
      (([4, 8] : List ℚ).take (min (3 : ℤ).toNat ([4, 8] : List ℚ).length)).sum
        / ((min (3 : ℤ).toNat ([4, 8] : List ℚ).length : ℕ) : ℚ) ∧
    ∀ i : ℕ, 1 ≤ i → i < ([4, 8] : List ℚ).length →
      (calculateEMA [4, 8] 3).getD i 0 =
        ([4, 8] : List ℚ).getD i 0 * (2 / (((3 : ℤ) : ℚ) + 1)) +
          (calculateEMA [4, 8] 3).getD (i - 1) 0 * (1 - 2 / (((3 : ℤ) : ℚ) + 1)) :=
  calculateEMA_length_seed_recurrence [4, 8] 3 (by decide) (by decide)

/-- C5: for every candle series with fewer than 676 candles, regardless of
content, `calculateIndicators` yields no snapshot and `analyzeSignal`
produces no signal (and leaves the state untouched). -/
theorem insufficient_data_no_signal (st : DetectorState) (candles : List CandleData)
    (h : candles.length < 676) :
    calculateIndicators candles = Option.none ∧
      VegasTunnel.analyzeSignal st candles = (Option.none, st) := by
  constructor
  · rw [calculateIndicators, if_pos h]
  · rw [VegasTunnel.analyzeSignal, if_pos h]

/-- C5 witness: the empty series. -/
theorem insufficient_data_no_signal_witness :
    calculateIndicators ([] : List CandleData) = Option.none ∧
      VegasTunnel.analyzeSignal ⟨TrendAlignment.none, false⟩ [] =
        (Option.none, ⟨TrendAlignment.none, false⟩) :=
  insufficient_data_no_signal ⟨TrendAlignment.none, false⟩ [] (by decide)

/-- C8: for every degenerate input — period P ≤ 0 or an empty price
sequence — `calculateEMA` returns the empty sequence (and, being total,
never fails). -/
theorem calculateEMA_degenerate_empty (prices : List ℚ) (period : ℤ)
    (h : period ≤ 0 ∨ prices = []) :
    calculateEMA prices period = [] := by
  rw [calculateEMA, if_pos]
  rcases h with h | h
  · exact Or.inr h
  · exact Or.inl (by rw [h]; rfl)

/-- C8 witness: a negative period and an empty sequence. -/
theorem calculateEMA_degenerate_empty_witness :
    calculateEMA [3] (-1) = [] ∧ calculateEMA [] 5 = [] :=
  ⟨calculateEMA_degenerate_empty [3] (-1) (Or.inl (by decide)),
   calculateEMA_degenerate_empty [] 5 (Or.inr rfl)⟩

/-- C1: from state `{none, armed: false}`, a single call on a series
(length ≥ 676) whose snapshot is strictly bullish-ordered and whose newest
candle has `low ≤ ema144` and `close ≥ ema12` emits `long` and leaves the
state at `{bullish, armed: false}`. -/
theorem analyzeSignal_bullish_single_candle_long
    (st : DetectorState) (candles : List CandleData) (ind : TechnicalIndicators)
    (_h676 : 676 ≤ candles.length)
    (hind : calculateIndicators candles = Option.some ind)
    (hb : bullishCond ind)
    (hst : st = ⟨TrendAlignment.none, false⟩)
    (hlow : (currentCandleOf candles).low ≤ ind.ema144)
    (hclose : (currentCandleOf candles).close ≥ ind.ema12) :
    VegasTunnel.analyzeSignal st candles =
      (Option.some
        { type := SignalType.long
          price := (currentCandleOf candles).close
          timestamp := (currentCandleOf candles).timestamp
          indicators := ind },
       ⟨TrendAlignment.bullish, false⟩) := by
  subst hst
  rw [analyzeSignal_eq_some _ _ ind hind]
  have hca : classifyAlignment ind = TrendAlignment.bullish := by
    rw [classifyAlignment, if_pos hb]
  have hstep : tunnelStep false ind (currentCandleOf candles) = (SignalType.long, false) := by
    rw [tunnelStep]
    simp only [hca, if_true]
    rw [if_pos ⟨hlow, hclose⟩]
  dsimp only
  rw [hstep, hca]

/-- C1 witness: the rising series from the idle state. -/
theorem analyzeSignal_bullish_single_candle_long_witness :
    VegasTunnel.analyzeSignal ⟨TrendAlignment.none, false⟩ upCandles =
      (Option.some
        { type := SignalType.long
          price := (currentCandleOf upCandles).close
          timestamp := (currentCandleOf upCandles).timestamp
          indicators := upInd },
       ⟨TrendAlignment.bullish, false⟩) :=
  analyzeSignal_bullish_single_candle_long _ upCandles upInd
    (by rw [upCandles_length])
    upCandles_ind upInd_bullish rfl
    (by rw [upCandles_current]; exact upLast_low_le)
    (by rw [upCandles_current]; exact upLast_close_ge)

/-- C2: two consecutive bullish calls: the first (unarmed) with
`low ≤ ema144` and `close < ema12` emits `none` and arms the detector; the
second with `close ≥ ema12` emits `long` and disarms it. -/
theorem analyzeSignal_retest_then_confirm
    (st₀ : DetectorState) (c₁ c₂ : List CandleData) (ind₁ ind₂ : TechnicalIndicators)
    (h₁ : calculateIndicators c₁ = Option.some ind₁)
    (h₂ : calculateIndicators c₂ = Option.some ind₂)
    (hb₁ : bullishCond ind₁) (hb₂ : bullishCond ind₂)
    (h0 : st₀.armed = false)
    (hlow₁ : (currentCandleOf c₁).low ≤ ind₁.ema144)
    (hcl₁ : (currentCandleOf c₁).close < ind₁.ema12)
    (hcl₂ : (currentCandleOf c₂).close ≥ ind₂.ema12) :
    VegasTunnel.analyzeSignal st₀ c₁ =
      (Option.some
        { type := SignalType.none
          price := (currentCandleOf c₁).close
          timestamp := (currentCandleOf c₁).timestamp
          indicators := ind₁ },
       ⟨TrendAlignment.bullish, true⟩) ∧
    VegasTunnel.analyzeSignal ⟨TrendAlignment.bullish, true⟩ c₂ =
      (Option.some
        { type := SignalType.long
          price := (currentCandleOf c₂).close
          timestamp := (currentCandleOf c₂).timestamp
          indicators := ind₂ },
       ⟨TrendAlignment.bullish, false⟩) := by
  constructor
  · rw [analyzeSignal_eq_some _ _ ind₁ h₁, h0]
    have hca : classifyAlignment ind₁ = TrendAlignment.bullish := by
      rw [classifyAlignment, if_pos hb₁]
    have hstep : tunnelStep false ind₁ (currentCandleOf c₁) = (SignalType.none, true) := by
      rw [tunnelStep]
      simp only [hca, if_true]
      rw [if_neg (fun hc => absurd hc.2 (not_le.mpr hcl₁)), if_pos hlow₁]
    rw [hstep, hca]
  · rw [analyzeSignal_eq_some _ _ ind₂ h₂]
    have hca : classifyAlignment ind₂ = TrendAlignment.bullish := by
      rw [classifyAlignment, if_pos hb₂]
    have hstep : tunnelStep true ind₂ (currentCandleOf c₂) = (SignalType.long, false) := by
      rw [tunnelStep]
      simp only [hca]
      rw [if_pos hcl₂]
      simp only [Bool.true_eq_false, if_false]
    dsimp only
    rw [hstep, hca]

/-- C2 witness: the arming series followed by the rising series. -/
theorem analyzeSignal_retest_then_confirm_witness :
    VegasTunnel.analyzeSignal ⟨TrendAlignment.none, false⟩ armCandles =
      (Option.some
        { type := SignalType.none
          price := (currentCandleOf armCandles).close
          timestamp := (currentCandleOf armCandles).timestamp
          indicators := armInd },
       ⟨TrendAlignment.bullish, true⟩) ∧
    VegasTunnel.analyzeSignal ⟨TrendAlignment.bullish, true⟩ upCandles =
      (Option.some
        { type := SignalType.long
          price := (currentCandleOf upCandles).close
          timestamp := (currentCandleOf upCandles).timestamp
          indicators := upInd },
       ⟨TrendAlignment.bullish, false⟩) :=
  analyzeSignal_retest_then_confirm ⟨TrendAlignment.none, false⟩ armCandles upCandles
    armInd upInd armCandles_ind upCandles_ind armInd_bullish upInd_bullish rfl
    (by rw [armCandles_current]; exact armLast_low_le)
    (by rw [armCandles_current]; exact armLast_close_lt)
    (by rw [upCandles_current]; exact upLast_close_ge)

/-- C3: for every detector state (armed included) and every long-enough
series whose snapshot is neither strictly ascending nor strictly
descending, the call emits `none` and resets the state to
`{none, armed: false}`. -/
theorem analyzeSignal_no_alignment_resets
    (st : DetectorState) (candles : List CandleData) (ind : TechnicalIndicators)
    (_h676 : 676 ≤ candles.length)
    (hind : calculateIndicators candles = Option.some ind)
    (hnb : ¬ bullishCond ind) (hns : ¬ bearishCond ind) :
    VegasTunnel.analyzeSignal st candles =
      (Option.some
        { type := SignalType.none
          price := (currentCandleOf candles).close
          timestamp := (currentCandleOf candles).timestamp
          indicators := ind },
       ⟨TrendAlignment.none, false⟩) := by
  rw [analyzeSignal_eq_some _ _ ind hind]
  have hca : classifyAlignment ind = TrendAlignment.none := by
    rw [classifyAlignment, if_neg hnb, if_neg hns]
  have hstep : tunnelStep st.armed ind (currentCandleOf candles) = (SignalType.none, false) := by
    rw [tunnelStep]
    simp only [hca]
  rw [hstep, hca]

/-- C3 witness: the flat series from the armed bullish state. -/
theorem analyzeSignal_no_alignment_resets_witness :
    VegasTunnel.analyzeSignal ⟨TrendAlignment.bullish, true⟩ constCandles =
      (Option.some
        { type := SignalType.none
          price := (currentCandleOf constCandles).close
          timestamp := (currentCandleOf constCandles).timestamp
          indicators := constInd },
       ⟨TrendAlignment.none, false⟩) :=
  analyzeSignal_no_alignment_resets ⟨TrendAlignment.bullish, true⟩ constCandles constInd
    (by rw [constCandles_length]) constCandles_ind constInd_not_bullish constInd_not_bearish

/-- C9: the armed flag survives a direct bullish-to-bearish alignment
flip: a first bullish call that arms the detector (`low ≤ ema144`,
`close < ema12`) followed by a bearish call whose candle closes at or
below `ema12` emits `short` immediately — even though the bearish-side
retest (`high ≥ ema144`) never occurred. -/
theorem armed_flag_survives_alignment_flip
    (st₀ : DetectorState) (c₁ c₂ : List CandleData) (ind₁ ind₂ : TechnicalIndicators)
    (h₁ : calculateIndicators c₁ = Option.some ind₁)
    (h₂ : calculateIndicators c₂ = Option.some ind₂)
    (hb₁ : bullishCond ind₁) (hs₂ : bearishCond ind₂)
    (h0 : st₀.armed = false)
    (hlow₁ : (currentCandleOf c₁).low ≤ ind₁.ema144)
    (hcl₁ : (currentCandleOf c₁).close < ind₁.ema12)
    (hcl₂ : (currentCandleOf c₂).close ≤ ind₂.ema12)
    (_hhigh₂ : (currentCandleOf c₂).high < ind₂.ema144) :
    VegasTunnel.analyzeSignal st₀ c₁ =
      (Option.some
        { type := SignalType.none
          price := (currentCandleOf c₁).close
          timestamp := (currentCandleOf c₁).timestamp
          indicators := ind₁ },
       ⟨TrendAlignment.bullish, true⟩) ∧
    VegasTunnel.analyzeSignal ⟨TrendAlignment.bullish, true⟩ c₂ =
      (Option.some
        { type := SignalType.short
          price := (currentCandleOf c₂).close
          timestamp := (currentCandleOf c₂).timestamp
          indicators := ind₂ },
       ⟨TrendAlignment.bearish, false⟩) := by
  have hnb₂ : ¬ bullishCond ind₂ := fun hb => absurd hs₂.1 (not_lt.mpr (le_of_lt hb.1))
  constructor
  · rw [analyzeSignal_eq_some _ _ ind₁ h₁, h0]
    have hca : classifyAlignment ind₁ = TrendAlignment.bullish := by
      rw [classifyAlignment, if_pos hb₁]
    have hstep : tunnelStep false ind₁ (currentCandleOf c₁) = (SignalType.none, true) := by
      rw [tunnelStep]
      simp only [hca, if_true]
      rw [if_neg (fun hc => absurd hc.2 (not_le.mpr hcl₁)), if_pos hlow₁]
    rw [hstep, hca]
  · rw [analyzeSignal_eq_some _ _ ind₂ h₂]
    have hca : classifyAlignment ind₂ = TrendAlignment.bearish := by
      rw [classifyAlignment, if_neg hnb₂, if_pos hs₂]
    have hstep : tunnelStep true ind₂ (currentCandleOf c₂) = (SignalType.short, false) := by
      rw [tunnelStep]
      simp only [hca]
      rw [if_pos hcl₂]
      simp only [Bool.true_eq_false, if_false]
    dsimp only
    rw [hstep, hca]

/-- C9 witness: the arming series followed by the falling series, whose
newest candle has `high = 0`, far below the tunnel. -/
theorem armed_flag_survives_alignment_flip_witness :
    VegasTunnel.analyzeSignal ⟨TrendAlignment.none, false⟩ armCandles =
      (Option.some
        { type := SignalType.none
          price := (currentCandleOf armCandles).close
          timestamp := (currentCandleOf armCandles).timestamp
          indicators := armInd },
       ⟨TrendAlignment.bullish, true⟩) ∧
    VegasTunnel.analyzeSignal ⟨TrendAlignment.bullish, true⟩ downCandles =
      (Option.some
        { type := SignalType.short
          price := (currentCandleOf downCandles).close
          timestamp := (currentCandleOf downCandles).timestamp
          indicators := downInd },
       ⟨TrendAlignment.bearish, false⟩) :=
  armed_flag_survives_alignment_flip ⟨TrendAlignment.none, false⟩ armCandles downCandles
    armInd downInd armCandles_ind downCandles_ind armInd_bullish downInd_bearish rfl
    (by rw [armCandles_current]; exact armLast_low_le)
    (by rw [armCandles_current]; exact armLast_close_lt)
    (by rw [downCandles_current]; exact downLast_close_le)
    (by rw [downCandles_current]; exact downLast_high_lt)

/-- C10: under bullish (resp. bearish) classification the armed-state
invalidation test `ema12 ≤ ema144` (resp. `ema12 ≥ ema144`) is
unreachable, so an armed call whose candle closes on the wrong side of
`ema12` emits `none` and stays armed. -/
theorem armed_invalidation_branch_unreachable :
    (∀ (st : DetectorState) (candles : List CandleData) (ind : TechnicalIndicators),
      calculateIndicators candles = Option.some ind → bullishCond ind →
      st = ⟨TrendAlignment.bullish, true⟩ →
      (currentCandleOf candles).close < ind.ema12 →
      ¬ ind.ema12 ≤ ind.ema144 ∧
        VegasTunnel.analyzeSignal st candles =
          (Option.some
            { type := SignalType.none
              price := (currentCandleOf candles).close
              timestamp := (currentCandleOf candles).timestamp
              indicators := ind },
           ⟨TrendAlignment.bullish, true⟩)) ∧
    (∀ (st : DetectorState) (candles : List CandleData) (ind : TechnicalIndicators),
      calculateIndicators candles = Option.some ind → bearishCond ind →
      st = ⟨TrendAlignment.bearish, true⟩ →
      ind.ema12 < (currentCandleOf candles).close →
      ¬ ind.ema144 ≤ ind.ema12 ∧
        VegasTunnel.analyzeSignal st candles =
          (Option.some
            { type := SignalType.none
              price := (currentCandleOf candles).close
              timestamp := (currentCandleOf candles).timestamp
              indicators := ind },
           ⟨TrendAlignment.bearish, true⟩)) := by
  constructor
  · intro st candles ind hind hb hst hcl
    subst hst
    refine ⟨not_le.mpr hb.1, ?_⟩
    rw [analyzeSignal_eq_some _ _ ind hind]
    have hca : classifyAlignment ind = TrendAlignment.bullish := by
      rw [classifyAlignment, if_pos hb]
    have hstep : tunnelStep true ind (currentCandleOf candles) = (SignalType.none, true) := by
      rw [tunnelStep]
      simp only [hca]
      rw [if_neg (not_le.mpr hcl), if_neg (not_le.mpr hb.1)]
      simp only [Bool.true_eq_false, if_false]
    dsimp only
    rw [hstep, hca]
  · intro st candles ind hind hs hst hcl
    subst hst
    have hnb : ¬ bullishCond ind := fun hb => absurd hs.1 (not_lt.mpr (le_of_lt hb.1))
    refine ⟨not_le.mpr hs.1, ?_⟩
    rw [analyzeSignal_eq_some _ _ ind hind]
    have hca : classifyAlignment ind = TrendAlignment.bearish := by
      rw [classifyAlignment, if_neg hnb, if_pos hs]
    have hstep : tunnelStep true ind (currentCandleOf candles) = (SignalType.none, true) := by
      rw [tunnelStep]
      simp only [hca]
      rw [if_neg (not_le.mpr hcl), if_neg (not_le.mpr hs.1)]
      simp only [Bool.true_eq_false, if_false]
    dsimp only
    rw [hstep, hca]

/-- C10 witness: the arming series from the armed bullish state and the
recovering series from the armed bearish state. -/
theorem armed_invalidation_branch_unreachable_witness :
    (¬ armInd.ema12 ≤ armInd.ema144 ∧
      VegasTunnel.analyzeSignal ⟨TrendAlignment.bullish, true⟩ armCandles =
        (Option.some
          { type := SignalType.none
            price := (currentCandleOf armCandles).close
            timestamp := (currentCandleOf armCandles).timestamp
            indicators := armInd },
         ⟨TrendAlignment.bullish, true⟩)) ∧
    (¬ down2Ind.ema144 ≤ down2Ind.ema12 ∧
      VegasTunnel.analyzeSignal ⟨TrendAlignment.bearish, true⟩ down2Candles =
        (Option.some
          { type := SignalType.none
            price := (currentCandleOf down2Candles).close
            timestamp := (currentCandleOf down2Candles).timestamp
            indicators := down2Ind },
         ⟨TrendAlignment.bearish, true⟩)) :=
  ⟨armed_invalidation_branch_unreachable.1 ⟨TrendAlignment.bullish, true⟩ armCandles armInd
      armCandles_ind armInd_bullish rfl
      (by rw [armCandles_current]; exact armLast_close_lt),
   armed_invalidation_branch_unreachable.2 ⟨TrendAlignment.bearish, true⟩ down2Candles down2Ind
      down2Candles_ind down2Ind_bearish rfl
      (by rw [down2Candles_current]; exact down2Last_close_gt)⟩

/-- C6 counterexample: with entry 100, direction `long`, swingHigh 110 and
swingLow 0 — both bounds supplied — the code does not use the swing range
`|110 − 0|` (which would put target1 at 210); JavaScript truthiness sends
the zero bound to the 5% default, putting target1 at 105. -/
theorem fib_swing_zero_counterexample :
    (0 : ℚ) < 100 ∧
    calculateFibonacciTargets 100 Direction.long (Option.some 110) (Option.some 0) ≠
      specFibTargets 100 Direction.long |(110 : ℚ) - 0| ∧
    calculateFibonacciTargets 100 Direction.long (Option.some 110) (Option.some 0) =
      specFibTargets 100 Direction.long (100 * (5 / 100)) := by
  refine ⟨by norm_num, ?_, ?_⟩
  · intro h
    have h1 := congrArg FibonacciTargets.target1 h
    norm_num [calculateFibonacciTargets, specFibTargets, truthy] at h1
  · norm_num [calculateFibonacciTargets, specFibTargets, truthy]

/-- C6 amended: for every entry price > 0 and direction, the swing range
`|swingHigh − swingLow|` is used exactly when both bounds are supplied and
both are nonzero (JavaScript truthiness); otherwise the 5% default range
applies; the targets are entry ± range·{1.0, 1.618, 2.0}. -/
theorem calculateFibonacciTargets_range_rule (entry : ℚ) (_hpos : 0 < entry)
    (direction : Direction) (swingHigh swingLow : Option ℚ) :
    calculateFibonacciTargets entry direction swingHigh swingLow =
      specFibTargets entry direction
        (match swingHigh, swingLow with
         | Option.some h, Option.some l =>
           if h ≠ 0 ∧ l ≠ 0 then |h - l| else entry * (5 / 100)
         | _, _ => entry * (5 / 100)) := by
  cases direction <;> cases swingHigh <;> cases swingLow <;>
    simp only [calculateFibonacciTargets, specFibTargets, truthy, Bool.false_and,
      Bool.and_eq_true, bne_iff_ne, Bool.false_eq_true, if_false, Option.getD_some] <;>
    split_ifs <;>
    first
      | rfl
      | tauto

/-- C6 amended witness: entry 100, `long`, swing bounds 110 and 90. -/
theorem calculateFibonacciTargets_range_rule_witness :
    calculateFibonacciTargets 100 Direction.long (Option.some 110) (Option.some 90) =
      specFibTargets 100 Direction.long
        (match Option.some (110 : ℚ), Option.some (90 : ℚ) with
         | Option.some h, Option.some l =>
           if h ≠ 0 ∧ l ≠ 0 then |h - l| else (100 : ℚ) * (5 / 100)
         | _, _ => (100 : ℚ) * (5 / 100)) :=
  calculateFibonacciTargets_range_rule 100 (by decide) Direction.long
    (Option.some 110) (Option.some 90)

/-- C7 counterexample: at prices `[0, 1]` and period 1 the multiplier is
`k = 1`, so `ema[1] = price[1] = 1` even though `price[1] ≠ ema[0]`;
`ema[1]` is not strictly between `price[1]` and `ema[0]`. -/
theorem ema_strict_convexity_counterexample :
    (0 : ℤ) < 1 ∧ (1 : ℕ) ≤ 1 ∧ 1 < ([0, 1] : List ℚ).length ∧
    ([0, 1] : List ℚ).getD 1 0 ≠ (calculateEMA [0, 1] 1).getD 0 0 ∧
    ¬(min (([0, 1] : List ℚ).getD 1 0) ((calculateEMA [0, 1] 1).getD 0 0)
          < (calculateEMA [0, 1] 1).getD 1 0 ∧
      (calculateEMA [0, 1] 1).getD 1 0
          < max (([0, 1] : List ℚ).getD 1 0) ((calculateEMA [0, 1] 1).getD 0 0)) := by
  have hE : calculateEMA [0, 1] 1 = [0, 1] := by
    rw [calculateEMA, if_neg (by norm_num)]
    norm_num [emaFrom, emaStep]
  rw [hE]
  norm_num

/-- C7 amended: for every period P > 0 and index i ≥ 1, `ema[i]` lies
between `price[i]` and `ema[i-1]` (inclusively); when moreover P ≥ 2 and
`price[i] ≠ ema[i-1]` it lies strictly between them (for P = 1 the
multiplier is 1 and `ema[i] = price[i]`). -/
theorem ema_convex_combination (prices : List ℚ) (period : ℤ) (i : ℕ)
    (hP : 0 < period) (h1 : 1 ≤ i) (hiN : i < prices.length) :
    min (prices.getD i 0) ((calculateEMA prices period).getD (i - 1) 0)
        ≤ (calculateEMA prices period).getD i 0 ∧
    (calculateEMA prices period).getD i 0
        ≤ max (prices.getD i 0) ((calculateEMA prices period).getD (i - 1) 0) ∧
    (2 ≤ period → prices.getD i 0 ≠ (calculateEMA prices period).getD (i - 1) 0 →
      min (prices.getD i 0) ((calculateEMA prices period).getD (i - 1) 0)
          < (calculateEMA prices period).getD i 0 ∧
      (calculateEMA prices period).getD i 0
          < max (prices.getD i 0) ((calculateEMA prices period).getD (i - 1) 0)) := by
  have hrec := calculateEMA_getD_succ prices period i hP h1 hiN
  set p := prices.getD i 0 with hp
  set prev := (calculateEMA prices period).getD (i - 1) 0 with hprev
  set e := (calculateEMA prices period).getD i 0 with he
  set k : ℚ := 2 / ((period : ℚ) + 1) with hk
  have hPQ : (1 : ℚ) ≤ (period : ℚ) := by exact_mod_cast hP
  have hden : (0 : ℚ) < (period : ℚ) + 1 := by linarith
  have hk0 : 0 < k := by
    rw [hk]
    positivity
  have hk1 : k ≤ 1 := by
    rw [hk, div_le_one hden]
    linarith
  constructor
  · rcases le_total p prev with hle | hle
    · rw [min_eq_left hle, hrec]
      nlinarith [mul_nonneg (sub_nonneg.mpr hle) (sub_nonneg.mpr hk1)]
    · rw [min_eq_right hle, hrec]
      nlinarith [mul_nonneg (sub_nonneg.mpr hle) hk0.le]
  constructor
  · rcases le_total p prev with hle | hle
    · rw [max_eq_right hle, hrec]
      nlinarith [mul_nonneg (sub_nonneg.mpr hle) hk0.le]
    · rw [max_eq_left hle, hrec]
      nlinarith [mul_nonneg (sub_nonneg.mpr hle) (sub_nonneg.mpr hk1)]
  · intro hP2 hne
    have hklt : k < 1 := by
      rw [hk, div_lt_one hden]
      have : (2 : ℚ) ≤ (period : ℚ) := by exact_mod_cast hP2
      linarith
    rcases lt_or_gt_of_ne hne with hlt | hlt
    · rw [min_eq_left hlt.le, max_eq_right hlt.le, hrec]
      constructor
      · nlinarith [mul_pos (sub_pos.mpr hlt) (sub_pos.mpr hklt)]
      · nlinarith [mul_pos (sub_pos.mpr hlt) hk0]
    · rw [min_eq_right hlt.le, max_eq_left hlt.le, hrec]
      constructor
      · nlinarith [mul_pos (sub_pos.mpr hlt) hk0]
      · nlinarith [mul_pos (sub_pos.mpr hlt) (sub_pos.mpr hklt)]

/-- C7 amended witness: prices `[0, 1]`, period 3, index 1. -/
theorem ema_convex_combination_witness :
    min (([0, 1] : List ℚ).getD 1 0) ((calculateEMA [0, 1] 3).getD (1 - 1) 0)
        ≤ (calculateEMA [0, 1] 3).getD 1 0 ∧
    (calculateEMA [0, 1] 3).getD 1 0
        ≤ max (([0, 1] : List ℚ).getD 1 0) ((calculateEMA [0, 1] 3).getD (1 - 1) 0) ∧
    (2 ≤ (3 : ℤ) → ([0, 1] : List ℚ).getD 1 0 ≠ (calculateEMA [0, 1] 3).getD (1 - 1) 0 →
      min (([0, 1] : List ℚ).getD 1 0) ((calculateEMA [0, 1] 3).getD (1 - 1) 0)
          < (calculateEMA [0, 1] 3).getD 1 0 ∧
      (calculateEMA [0, 1] 3).getD 1 0
          < max (([0, 1] : List ℚ).getD 1 0) ((calculateEMA [0, 1] 3).getD (1 - 1) 0)) :=
  ema_convex_combination [0, 1] 3 1 (by decide) (by decide) (by decide)
